import Mathlib

/-!
Shallow embedding of the avr-doomclock firmware core (src/firmware/nmea.c,
src/firmware/main.c) and proofs of the specification claims.

Bytes are modelled as `Nat` values; every read from the serial stream is
truncated with `% 256`, matching the 8-bit `char` returned by
`uart_read_byte`.  `uint8_t` / `uint16_t` arithmetic is made explicit with
`% 256` / `% 65536` where the C code can wrap.  The output `GpsTime*`
parameter of `gps_read_time` is modelled as a raw byte map `Nat → Nat`,
mirroring the `((uint8_t*) output)[outputIndex]` writes in the source.
-/

/-- `enum GpsReadStatus` from nmea.h. -/
inductive GpsReadStatus where
  | kGPS_Success
  | kGPS_NoSignal
  | kGPS_NoMatch
  | kGPS_InvalidChecksum
  | kGPS_BadFormat
deriving DecidableEq, Repr

/-- `enum NmeaReadState` from nmea.c. -/
inductive NmeaReadState where
  | kSearchStart
  | kSkipSentence
  | kReadType
  | kReadFields
  | kChecksumVerify
deriving DecidableEq, Repr

/-- The local variables of `gps_read_time` together with the output
byte array (`((uint8_t*) output)[...]`), threaded through the loop.
`field` is the `enum GPRMCField` value as a number (`GPRMC_Timestamp = 1`,
`GPRMC_DateStamp = 9`); the C code increments it without bound. -/
structure DecoderState where
  checksum : Nat
  buf0 : Nat
  buf1 : Nat
  bufIndex : Nat
  outputIndex : Nat
  typeStrIndex : Nat
  rstate : NmeaReadState
  field : Nat
  hitTimeDecimal : Bool
  sawTimeFields : Bool
  out : Nat → Nat

/-- The state at the top of the `for` loop in `gps_read_time`: all
counters zero, flags false, state `kSearchStart`, output bytes zeroed
(the C leaves them arbitrary; zero stands for "untouched"). -/
def initState : DecoderState :=
  { checksum := 0, buf0 := 0, buf1 := 0, bufIndex := 0, outputIndex := 0,
    typeStrIndex := 0, rstate := NmeaReadState.kSearchStart, field := 0,
    hitTimeDecimal := false, sawTimeFields := false, out := fun _ => 0 }

/-- The `static const __flash char GPRMC[5] = "GPRMC"` array. -/
def gprmcChar : Nat → Nat := fun i => [71, 80, 82, 77, 67].getD i 0

/-- `hex2int`'s per-character nibble: `'0'..'9'` and `'A'..'F'` map to
their value, anything else contributes nothing (the C `if`/`else if`
has no final `else`). -/
def hexNibble (c : Nat) : Nat :=
  if 48 ≤ c ∧ c ≤ 57 then c - 48
  else if 65 ≤ c ∧ c ≤ 70 then c - 65 + 10
  else 0

/-- `hex2int` from nmea.c: two hex characters to a byte
(`output <<= 4; output |= nibble`, twice). -/
def hex2int (b0 b1 : Nat) : Nat :=
  hexNibble b0 * 16 + hexNibble b1

/-- `gps_atoi` from nmea.c: `(str[0]-'0')*10 + (str[1]-'0')` computed in
`int` and truncated to `uint8_t`. -/
def gps_atoi (b0 b1 : Nat) : Nat :=
  ((((b0 : Int) - 48) * 10 + ((b1 : Int) - 48)) % 256).toNat

/-- `sizeof(GpsTime)`: 3 bytes, or 6 with `ENABLE_GPS_DATE`. -/
def sizeofGpsTime (de : Bool) : Nat := if de then 6 else 3

/-- One iteration of the `for` loop body of `gps_read_time` on byte
`byte`: returns the updated locals and `some status` exactly when the C
code executes a `return`.  `de` is the `ENABLE_GPS_DATE` compile flag. -/
def nmeaStep (de : Bool) (s : DecoderState) (byte : Nat) :
    DecoderState × Option GpsReadStatus :=
  match s.rstate with
  | NmeaReadState.kSearchStart =>
      if byte = 10 then (s, some GpsReadStatus.kGPS_NoMatch)
      else if byte = 36 then ({ s with rstate := NmeaReadState.kReadType }, none)
      else (s, none)
  | NmeaReadState.kSkipSentence =>
      if byte ≠ 10 then (s, none)
      else (s, some GpsReadStatus.kGPS_NoMatch)
  | NmeaReadState.kReadType =>
      let cs := s.checksum ^^^ byte
      if byte = gprmcChar s.typeStrIndex then
        if s.typeStrIndex = 4 then
          ({ s with checksum := cs, rstate := NmeaReadState.kReadFields }, none)
        else
          ({ s with checksum := cs, typeStrIndex := s.typeStrIndex + 1 }, none)
      else
        ({ s with checksum := cs, rstate := NmeaReadState.kSkipSentence }, none)
  | NmeaReadState.kReadFields =>
      if byte = 42 then
        ({ s with rstate := NmeaReadState.kChecksumVerify }, none)
      else
        let cs := s.checksum ^^^ byte
        if byte = 44 then
          ({ s with checksum := cs, field := s.field + 1 }, none)
        else if s.field = 1 ∧ (s.hitTimeDecimal ∨ byte = 46) then
          ({ s with checksum := cs, hitTimeDecimal := true }, none)
        else if s.field = 1 ∨ (de ∧ s.field = 9) then
          -- digit-pair collection (timestamp, and datestamp when enabled)
          if s.bufIndex = 0 then
            ({ s with checksum := cs, buf0 := byte, bufIndex := 1 }, none)
          else
            ({ s with
               checksum := cs
               buf1 := byte
               bufIndex := 0
               out := fun j => if j = s.outputIndex then gps_atoi s.buf0 byte
                               else s.out j
               outputIndex := s.outputIndex + 1
               sawTimeFields := true }, none)
        else
          ({ s with checksum := cs }, none)
  | NmeaReadState.kChecksumVerify =>
      if s.bufIndex = 0 then
        ({ s with buf0 := byte, bufIndex := 1 }, none)
      else
        let received := hex2int s.buf0 byte
        ({ s with buf1 := byte, bufIndex := 2 },
         some (if received = s.checksum then
                 (if s.sawTimeFields then GpsReadStatus.kGPS_Success
                  else GpsReadStatus.kGPS_NoSignal)
               else GpsReadStatus.kGPS_InvalidChecksum))

/-- The bounded `for (uint8_t i = 79; i != 0; --i)` loop: `fuel`
iterations remain, the next byte comes from `stream pos`.  Returns the
status, the final locals, and the number of bytes consumed.  Exhausting
the fuel yields `kGPS_BadFormat` as in the source. -/
def runDecoder (de : Bool) (stream : Nat → Nat) :
    Nat → Nat → DecoderState → GpsReadStatus × DecoderState × Nat
  | 0, pos, s => (GpsReadStatus.kGPS_BadFormat, s, pos)
  | fuel + 1, pos, s =>
      match nmeaStep de s (stream pos % 256) with
      | (s', none) => runDecoder de stream fuel (pos + 1) s'
      | (s', some st) => (st, s', pos + 1)

/-- `gps_read_time` from nmea.c, reading bytes `stream 0, stream 1, ...`
from the modelled `uart_read_byte`. -/
def gps_read_time (de : Bool) (stream : Nat → Nat) :
    GpsReadStatus × DecoderState × Nat :=
  runDecoder de stream 79 0 initState

/-- Running `n` loop iterations from position `pos`, provided none of
them executes a `return`; `none` if some iteration returns early. -/
def stepN (de : Bool) (stream : Nat → Nat) :
    Nat → Nat → DecoderState → Option DecoderState
  | 0, _, s => some s
  | n + 1, pos, s =>
      match nmeaStep de s (stream pos % 256) with
      | (s', none) => stepN de stream n (pos + 1) s'
      | (_, some _) => none

/-- The bytes of spec Example 1
(`"$GPRMC,081836,A,3751.65,S,14507.36,E,000.0,360.0,130998,011.3,E*62\r\n"`). -/
def ex1List : List Nat :=
  "$GPRMC,081836,A,3751.65,S,14507.36,E,000.0,360.0,130998,011.3,E*62\r\n".data.map
    Char.toNat

/-- Example 1 as a byte stream (0 past the end of the sentence). -/
def ex1Stream : Nat → Nat := fun i => ex1List.getD i 0

/-- The bytes of spec Example 2
(`"$GPRMC,091502.00,V,,,,,,,040219,,,N*7C\r\n"`). -/
def ex2List : List Nat :=
  "$GPRMC,091502.00,V,,,,,,,040219,,,N*7C\r\n".data.map Char.toNat

/-- Example 2 as a byte stream (0 past the end of the sentence). -/
def ex2Stream : Nat → Nat := fun i => ex2List.getD i 0

/-- The stream `stream` with bit `b` of the byte at position `q` flipped. -/
def flipBit (stream : Nat → Nat) (q b : Nat) : Nat → Nat :=
  fun i => if i = q then stream i ^^^ 2 ^ b else stream i

/-- A sentence whose timestamp field carries four digit pairs
(`"$GPRMC,00112233"`), used to drive the decoder's output index past the
end of the 3-byte `GpsTime`. -/
def overlongList : List Nat := "$GPRMC,00112233".data.map Char.toNat

/-- `overlongList` as a byte stream. -/
def overlongStream : Nat → Nat := fun i => overlongList.getD i 0

/-! ### main.c: time and timezone handling -/

/-- `struct GpsTime` from nmea.h as used by main.c (compiled without
`ENABLE_GPS_DATE`): three `uint8_t` fields. -/
structure GpsTime where
  hour : Nat
  minute : Nat
  second : Nat
deriving DecidableEq, Repr

/-- `increment_timezone` from main.c, acting on the `int8_t`
`_timezoneOffset` global: `++offset; if (offset > 13) offset = -12;`. -/
def increment_timezone (offset : Int) : Int :=
  let t := offset + 1
  if t > 13 then -12 else t

/-- `apply_timezone_offset` from main.c: the hour is moved into a signed
`int8_t`, the offset added, and the result brought back into [0, 23] by a
single ±24 correction. -/
def apply_timezone_offset (offset : Int) (now : GpsTime) : GpsTime :=
  let hour : Int := (now.hour : Int) + offset
  let hour := if hour > 23 then hour - 24 else if hour < 0 then hour + 24 else hour
  { now with hour := hour.toNat }

/-- `increment_time` from main.c: the three sequential `uint8_t` carry
checks (`++second; if (second == 60) ...; if (minute == 60) ...;
if (hour == 24) ...`), each increment wrapping at 256 as in C. -/
def increment_time (tim : GpsTime) : GpsTime :=
  let s1 := (tim.second + 1) % 256
  let second := if s1 = 60 then 0 else s1
  let m1 := if s1 = 60 then (tim.minute + 1) % 256 else tim.minute
  let minute := if m1 = 60 then 0 else m1
  let h1 := if m1 = 60 then (tim.hour + 1) % 256 else tim.hour
  let hour := if h1 = 24 then 0 else h1
  { hour := hour, minute := minute, second := second }

/-! ### main.c: display_adjust_brightness -/

/-- The `static const __flash uint8_t brightnessTable[]` of
`display_adjust_brightness` (15 entries, 0 past the end). -/
def brightnessTable : Nat → Nat :=
  fun i => [30, 40, 50, 65, 80, 95, 110, 125, 140, 155, 170, 185, 200, 215, 230].getD i 0

/-- The `while (intensity < sizeof(brightnessTable) && brightnessTable[intensity]
< average) ++intensity;` scan, starting from `i`. -/
def intensityLoop (average : Nat) (i : Nat) : Nat :=
  if h : i < 15 ∧ brightnessTable i < average then intensityLoop average (i + 1)
  else i
termination_by 15 - i
decreasing_by omega

/-- The `static` locals of `display_adjust_brightness`: the 16-entry
ring buffer of `uint8_t` readings, the `uint8_t` write index, and the
`uint16_t` running total. -/
structure BrightnessState where
  averageBuffer : Nat → Nat
  writeIndex : Nat
  runningTotal : Nat

/-- `display_adjust_brightness` from main.c: adjusts the running total,
replaces the oldest sample, advances the write index mod 16, and scans
the brightness table for the intensity handed to `max7219_cmd`.  Returns
the new static state and the intensity.  Ring-buffer entries are
`uint8_t` (reads truncated with `% 256`), the running total wraps as a
`uint16_t`. -/
def display_adjust_brightness (s : BrightnessState) (reading : Nat) :
    BrightnessState × Nat :=
  let r := reading % 256
  let old := s.averageBuffer s.writeIndex % 256
  let total := ((s.runningTotal + 65536 - old) % 65536 + r) % 65536
  let buf := fun j => if j = s.writeIndex then r else s.averageBuffer j
  let wi := (s.writeIndex + 1) % 16
  let average := total / 16
  (⟨buf, wi, total⟩, intensityLoop average 0)

/-! ### Claims C7, C8, C10: timezone and time arithmetic -/

set_option maxRecDepth 4000 in
/-- C7: `increment_timezone` is a cyclic successor on the domain
[-12, 13]: every offset below 13 advances by 1, offset 13 wraps to -12
(never saturating), and 26 applications starting from -12 return to -12. -/
theorem C7_increment_timezone_cyclic :
    (∀ offset : Int, -12 ≤ offset → offset ≤ 13 →
      increment_timezone offset = if offset = 13 then -12 else offset + 1) ∧
    increment_timezone 13 = -12 ∧
    increment_timezone^[26] (-12) = -12 := by
  refine ⟨?_, by decide, by decide⟩
  intro offset h1 h2
  simp only [increment_timezone]
  split_ifs <;> omega

/-- Witness for C7 at offset 5. -/
theorem C7_witness : increment_timezone 5 = 6 := by
  have h := C7_increment_timezone_cyclic.1 5 (by decide) (by decide)
  simpa using h

/-- C8: for hour in [0, 23] and offset in [-12, 13],
`apply_timezone_offset` sets the hour to (hour + offset) mod 24 and
leaves minute and second unchanged. -/
theorem C8_apply_timezone_offset (offset : Int) (now : GpsTime)
    (hh : now.hour ≤ 23) (h1 : -12 ≤ offset) (h2 : offset ≤ 13) :
    ((apply_timezone_offset offset now).hour : Int) = ((now.hour : Int) + offset) % 24 ∧
    (apply_timezone_offset offset now).hour ≤ 23 ∧
    (apply_timezone_offset offset now).minute = now.minute ∧
    (apply_timezone_offset offset now).second = now.second := by
  refine ⟨?_, ?_, rfl, rfl⟩ <;>
  · simp only [apply_timezone_offset]
    split_ifs <;> omega

/-- Witness for C8 at 22:30:15 with offset +3 (wraps to hour 1). -/
theorem C8_witness :
    ((apply_timezone_offset 3 ⟨22, 30, 15⟩).hour : Int) = ((22 : Int) + 3) % 24 ∧
    (apply_timezone_offset 3 ⟨22, 30, 15⟩).hour ≤ 23 ∧
    (apply_timezone_offset 3 ⟨22, 30, 15⟩).minute = 30 ∧
    (apply_timezone_offset 3 ⟨22, 30, 15⟩).second = 15 :=
  C8_apply_timezone_offset 3 ⟨22, 30, 15⟩ (by decide) (by decide) (by decide)

/-- C10: for a time with hour in [0, 23], minute in [0, 59] and second
in [0, 59], `increment_time` advances by exactly one second with full
carry (one second mod 24 hours), and all fields stay in range; in
particular 23:59:59 maps to 00:00:00. -/
theorem C10_increment_time (t : GpsTime)
    (hh : t.hour ≤ 23) (hm : t.minute ≤ 59) (hs : t.second ≤ 59) :
    (increment_time t).hour ≤ 23 ∧
    (increment_time t).minute ≤ 59 ∧
    (increment_time t).second ≤ 59 ∧
    (increment_time t).hour * 3600 + (increment_time t).minute * 60 +
        (increment_time t).second
      = (t.hour * 3600 + t.minute * 60 + t.second + 1) % 86400 := by
  simp only [increment_time]
  split_ifs <;> refine ⟨by omega, by omega, by omega, ?_⟩ <;> omega

/-- Witness for C10 at 23:59:59, which rolls over to 00:00:00. -/
theorem C10_witness :
    (increment_time ⟨23, 59, 59⟩).hour ≤ 23 ∧
    (increment_time ⟨23, 59, 59⟩).minute ≤ 59 ∧
    (increment_time ⟨23, 59, 59⟩).second ≤ 59 ∧
    (increment_time ⟨23, 59, 59⟩).hour * 3600 +
        (increment_time ⟨23, 59, 59⟩).minute * 60 +
        (increment_time ⟨23, 59, 59⟩).second
      = (23 * 3600 + 59 * 60 + 59 + 1) % 86400 :=
  C10_increment_time ⟨23, 59, 59⟩ (by decide) (by decide) (by decide)

/-! ### Claims C5, C6: concrete example sentences -/

/-- C5: decoding Example 1 returns `kGPS_Success` with time 08:18:36
written to the first three output bytes, and with `ENABLE_GPS_DATE` also
day 13, month 09, year 98 in the next three bytes. -/
theorem C5_example1 :
    (gps_read_time false ex1Stream).1 = GpsReadStatus.kGPS_Success ∧
    (gps_read_time false ex1Stream).2.1.out 0 = 8 ∧
    (gps_read_time false ex1Stream).2.1.out 1 = 18 ∧
    (gps_read_time false ex1Stream).2.1.out 2 = 36 ∧
    (gps_read_time true ex1Stream).1 = GpsReadStatus.kGPS_Success ∧
    (gps_read_time true ex1Stream).2.1.out 0 = 8 ∧
    (gps_read_time true ex1Stream).2.1.out 1 = 18 ∧
    (gps_read_time true ex1Stream).2.1.out 2 = 36 ∧
    (gps_read_time true ex1Stream).2.1.out 3 = 13 ∧
    (gps_read_time true ex1Stream).2.1.out 4 = 9 ∧
    (gps_read_time true ex1Stream).2.1.out 5 = 98 := by
  decide

/-- C6: decoding Example 2 returns `kGPS_Success` with time 09:15:02
(the `.00` fraction is discarded and the empty fields are skipped), and
in the timestamp field once the decimal point has been seen every
non-comma byte is discarded: only the checksum accumulator changes. -/
theorem C6_example2
    (s : DecoderState) (byte : Nat)
    (hst : s.rstate = NmeaReadState.kReadFields)
    (hf : s.field = 1) (hd : s.hitTimeDecimal = true)
    (hb1 : byte ≠ 42) (hb2 : byte ≠ 44) :
    ((gps_read_time false ex2Stream).1 = GpsReadStatus.kGPS_Success ∧
     (gps_read_time false ex2Stream).2.1.out 0 = 9 ∧
     (gps_read_time false ex2Stream).2.1.out 1 = 15 ∧
     (gps_read_time false ex2Stream).2.1.out 2 = 2) ∧
    ∀ de, nmeaStep de s byte =
      ({ s with checksum := s.checksum ^^^ byte }, none) := by
  constructor
  · decide
  · intro de
    simp [nmeaStep, hst, hf, hd, hb1, hb2]

/-- Witness for C6: a state in the fractional part of the timestamp
field, fed the byte '0'. -/
theorem C6_witness :
    ((gps_read_time false ex2Stream).1 = GpsReadStatus.kGPS_Success ∧
     (gps_read_time false ex2Stream).2.1.out 0 = 9 ∧
     (gps_read_time false ex2Stream).2.1.out 1 = 15 ∧
     (gps_read_time false ex2Stream).2.1.out 2 = 2) ∧
    ∀ de, nmeaStep de
      { initState with
        rstate := NmeaReadState.kReadFields
        field := 1
        hitTimeDecimal := true
        checksum := 7 } 48 =
      ({ initState with
         rstate := NmeaReadState.kReadFields
         field := 1
         hitTimeDecimal := true
         checksum := 7 ^^^ 48 }, none) :=
  C6_example2 _ 48 rfl rfl rfl (by decide) (by decide)

/-! ### Run composition lemmas -/

/-- The loop consumes at most `fuel` further bytes. -/
theorem runDecoder_consumed_le (de : Bool) (stream : Nat → Nat) :
    ∀ fuel pos s, (runDecoder de stream fuel pos s).2.2 ≤ pos + fuel := by
  intro fuel
  induction fuel with
  | zero => intro pos s; simp [runDecoder]
  | succ f ih =>
      intro pos s
      simp only [runDecoder]
      rcases h : nmeaStep de s (stream pos % 256) with ⟨s', st⟩
      rcases st with _ | st
      · have := ih (pos + 1) s'
        dsimp only
        omega
      · dsimp only
        omega

/-- Splitting a bounded run: `n` returnless iterations followed by the
rest of the loop. -/
theorem runDecoder_stepN (de : Bool) (stream : Nat → Nat) :
    ∀ n fuel pos s s', stepN de stream n pos s = some s' →
      runDecoder de stream (n + fuel) pos s = runDecoder de stream fuel (pos + n) s' := by
  intro n
  induction n with
  | zero => intro fuel pos s s' h; simp [stepN] at h; subst h; simp
  | succ n ih =>
      intro fuel pos s s' h
      simp only [stepN] at h
      rcases hs : nmeaStep de s (stream pos % 256) with ⟨s1, st⟩
      rw [hs] at h
      rcases st with _ | st
      · have h79 : n + 1 + fuel = (n + fuel) + 1 := by omega
        rw [h79]
        simp only [runDecoder, hs]
        have := ih fuel (pos + 1) s1 s' h
        rw [this]
        congr 1
        omega
      · simp at h

/-- Concatenating returnless runs. -/
theorem stepN_add (de : Bool) (stream : Nat → Nat) :
    ∀ m n pos s, stepN de stream (m + n) pos s =
      (stepN de stream m pos s).bind (fun s' => stepN de stream n (pos + m) s') := by
  intro m
  induction m with
  | zero => intro n pos s; simp [stepN]
  | succ m ih =>
      intro n pos s
      have h1 : m + 1 + n = (m + n) + 1 := by omega
      rw [h1]
      simp only [stepN]
      rcases hs : nmeaStep de s (stream pos % 256) with ⟨s1, st⟩
      rcases st with _ | st
      · dsimp only
        have h2 : pos + 1 + m = pos + (m + 1) := by omega
        rw [ih n (pos + 1) s1, h2]
      · simp

/-- While searching for `$`, bytes that are neither `$` nor a newline
leave the state untouched. -/
theorem stepN_search (de : Bool) (stream : Nat → Nat) :
    ∀ n pos s, s.rstate = NmeaReadState.kSearchStart →
      (∀ j, pos ≤ j → j < pos + n → stream j % 256 ≠ 36 ∧ stream j % 256 ≠ 10) →
      stepN de stream n pos s = some s := by
  intro n
  induction n with
  | zero => intro pos s _ _; simp [stepN]
  | succ n ih =>
      intro pos s hst hb
      have hb0 := hb pos (le_refl _) (by omega)
      simp only [stepN, nmeaStep, hst, if_neg hb0.2, if_neg hb0.1]
      exact ih (pos + 1) s hst (fun j h1 h2 => hb j (by omega) (by omega))

/-! ### Claim C1: bounded consumption and BadFormat on junk -/

/-- C1: `gps_read_time` consumes at most 79 bytes from the stream; if no
return fires during those 79 iterations the result is `kGPS_BadFormat`
with exactly 79 bytes consumed; and on a stream whose first 79 bytes
contain no `$`, `*` or newline it returns `kGPS_BadFormat` after
consuming exactly 79 bytes. -/
theorem C1_bounded_badformat (de : Bool) (stream : Nat → Nat) :
    (gps_read_time de stream).2.2 ≤ 79 ∧
    (∀ s, stepN de stream 79 0 initState = some s →
      (gps_read_time de stream).1 = GpsReadStatus.kGPS_BadFormat ∧
      (gps_read_time de stream).2.2 = 79) ∧
    ((∀ i, i < 79 → stream i % 256 ≠ 36 ∧ stream i % 256 ≠ 42 ∧ stream i % 256 ≠ 10) →
      (gps_read_time de stream).1 = GpsReadStatus.kGPS_BadFormat ∧
      (gps_read_time de stream).2.2 = 79) := by
  have hexhaust : ∀ s, stepN de stream 79 0 initState = some s →
      (gps_read_time de stream).1 = GpsReadStatus.kGPS_BadFormat ∧
      (gps_read_time de stream).2.2 = 79 := by
    intro s h
    have := runDecoder_stepN de stream 79 0 0 initState s h
    simp only [gps_read_time]
    rw [this]
    simp [runDecoder]
  refine ⟨?_, hexhaust, ?_⟩
  · have := runDecoder_consumed_le de stream 79 0 initState
    simpa [gps_read_time] using this
  · intro hjunk
    have hsearch : stepN de stream 79 0 initState = some initState := by
      apply stepN_search de stream 79 0 initState rfl
      intro j h1 h2
      exact ⟨(hjunk j (by omega)).1, (hjunk j (by omega)).2.2⟩
    exact hexhaust initState hsearch

/-- Witness for C1: the all-'A' stream consumes exactly 79 bytes and
returns `kGPS_BadFormat`. -/
theorem C1_witness :
    (gps_read_time false (fun _ => 65)).2.2 ≤ 79 ∧
    (gps_read_time false (fun _ => 65)).1 = GpsReadStatus.kGPS_BadFormat ∧
    (gps_read_time false (fun _ => 65)).2.2 = 79 := by
  have h := C1_bounded_badformat false (fun _ => 65)
  have h3 := h.2.2 (fun i _ => by decide)
  exact ⟨h.1, h3.1, h3.2⟩

/-! ### Claim C3: the ChecksumVerify decision -/

/-- C3: with the loop in `kChecksumVerify` holding one collected
checksum character, the next byte completes the pair and the decoder
returns immediately: `kGPS_Success` when the converted hex byte equals
the accumulated XOR and timestamp digits were seen, `kGPS_NoSignal`
when it matches but no timestamp digits were seen, and
`kGPS_InvalidChecksum` otherwise. -/
theorem C3_checksum_verify (de : Bool) (stream : Nat → Nat) (fuel pos : Nat)
    (s : DecoderState) (hst : s.rstate = NmeaReadState.kChecksumVerify)
    (hbuf : s.bufIndex = 1) (hfuel : 0 < fuel) :
    runDecoder de stream fuel pos s =
      (if hex2int s.buf0 (stream pos % 256) = s.checksum then
         (if s.sawTimeFields then GpsReadStatus.kGPS_Success
          else GpsReadStatus.kGPS_NoSignal)
       else GpsReadStatus.kGPS_InvalidChecksum,
       { s with buf1 := stream pos % 256, bufIndex := 2 }, pos + 1) := by
  obtain ⟨f, rfl⟩ : ∃ f, fuel = f + 1 := ⟨fuel - 1, by omega⟩
  simp [runDecoder, nmeaStep, hst, hbuf]

/-- Witness for C3: an accumulated checksum 0x00 against checksum
characters "00" with timestamp digits seen returns `kGPS_Success`. -/
theorem C3_witness :
    runDecoder false (fun _ => 48) 1 0
      { initState with
        rstate := NmeaReadState.kChecksumVerify
        bufIndex := 1
        buf0 := 48
        sawTimeFields := true } =
      (GpsReadStatus.kGPS_Success,
       { initState with
         rstate := NmeaReadState.kChecksumVerify
         bufIndex := 2
         buf0 := 48
         buf1 := 48
         sawTimeFields := true }, 1) := by
  have h := C3_checksum_verify false (fun _ => 48) 1 0
    { initState with
      rstate := NmeaReadState.kChecksumVerify
      bufIndex := 1
      buf0 := 48
      sawTimeFields := true } rfl rfl (by decide)
  rw [h]
  rfl

/-! ### Claim C4: unchecked output index -/

/-- Any byte beyond the current write position is untouched by a step:
writes only ever go to offset `outputIndex`. -/
theorem nmeaStep_out_untouched (de : Bool) (s : DecoderState) (byte : Nat)
    (hP : ∀ j, s.outputIndex ≤ j → s.out j = 0) :
    ∀ j, (nmeaStep de s byte).1.outputIndex ≤ j → (nmeaStep de s byte).1.out j = 0 := by
  obtain ⟨cs, b0, b1, bi, oi, ti, rs, f, htd, stf, out⟩ := s
  dsimp only at hP
  cases rs <;> simp only [nmeaStep] <;> split_ifs <;> intro j hj <;>
    dsimp only at hj ⊢ <;>
    first
      | (rw [if_neg (by omega)]; exact hP j (by omega))
      | exact hP j (by omega)

/-- C4: in every step of the decoder the output index either stays or
increments by one, and the only output byte a step can change is the one
at offset `outputIndex` (there is no bounds check); consequently a run
never touches bytes at or beyond its final output index, and the
concrete sentence `"$GPRMC,00112233"`, whose timestamp field carries
four digit pairs, drives the write index to 4 and stores the value 33 at
byte offset 3 — past the last field of the 3-byte `GpsTime`. -/
theorem C4_output_index (de : Bool) (stream : Nat → Nat) :
    (∀ s byte,
      ((nmeaStep de s byte).1.outputIndex = s.outputIndex ∨
       (nmeaStep de s byte).1.outputIndex = s.outputIndex + 1) ∧
      (∀ j, j ≠ s.outputIndex → (nmeaStep de s byte).1.out j = s.out j)) ∧
    (∀ n pos s, stepN de stream n pos initState = some s →
      ∀ j, s.outputIndex ≤ j → s.out j = 0) ∧
    ((stepN false overlongStream 15 0 initState).map
        (fun s => (s.outputIndex, s.out (sizeofGpsTime false))) = some (4, 33)) := by
  refine ⟨?_, ?_, by decide⟩
  · intro s byte
    obtain ⟨cs, b0, b1, bi, oi, ti, rs, f, htd, stf, out⟩ := s
    cases rs <;> simp only [nmeaStep] <;> split_ifs <;>
      exact ⟨by simp, fun j hj => by simp [hj]⟩
  · have hrun : ∀ n pos s s', (∀ j, s.outputIndex ≤ j → s.out j = 0) →
        stepN de stream n pos s = some s' → ∀ j, s'.outputIndex ≤ j → s'.out j = 0 := by
      intro n
      induction n with
      | zero => intro pos s s' hP h; simp [stepN] at h; subst h; exact hP
      | succ n ih =>
          intro pos s s' hP h
          simp only [stepN] at h
          rcases hs : nmeaStep de s (stream pos % 256) with ⟨s1, st⟩
          rw [hs] at h
          rcases st with _ | st
          · exact ih (pos + 1) s1 s'
              (by have := nmeaStep_out_untouched de s (stream pos % 256) hP
                  rw [hs] at this; exact this) h
          · simp at h
    intro n pos s h
    exact hrun n pos initState s (fun j _ => rfl) h

/-- Witness for C4: a step on the initial state leaves output byte 2
untouched. -/
theorem C4_witness :
    (nmeaStep false initState 65).1.out 2 = initState.out 2 :=
  ((C4_output_index false overlongStream).1 initState 65).2 2 (by decide)

/-! ### Claim C9: brightness ring buffer and threshold scan -/

/-- Characterization of the brightness-table scan: starting at `i ≤ 15`
it stops at the first index at or after `i` whose table entry is at
least `average`, or at 15 when no such index exists. -/
theorem intensityLoop_spec (average : Nat) :
    ∀ n i, 15 - i ≤ n → i ≤ 15 →
      i ≤ intensityLoop average i ∧ intensityLoop average i ≤ 15 ∧
      (∀ k, i ≤ k → k < intensityLoop average i → brightnessTable k < average) ∧
      (intensityLoop average i < 15 →
        average ≤ brightnessTable (intensityLoop average i)) := by
  intro n
  induction n with
  | zero =>
      intro i h1 h2
      have hi : i = 15 := by omega
      subst hi
      rw [intensityLoop, dif_neg (by omega)]
      exact ⟨le_refl _, le_refl _, fun k hk1 hk2 => by omega, fun h => by omega⟩
  | succ n ih =>
      intro i h1 h2
      by_cases h : i < 15 ∧ brightnessTable i < average
      · rw [intensityLoop, dif_pos h]
        have := ih (i + 1) (by omega) (by omega)
        refine ⟨by omega, this.2.1, ?_, this.2.2.2⟩
        intro k hk1 hk2
        rcases Nat.eq_or_lt_of_le hk1 with hk | hk
        · subst hk; exact h.2
        · exact this.2.2.1 k (by omega) hk2
      · rw [intensityLoop, dif_neg h]
        refine ⟨le_refl _, h2, fun k hk1 hk2 => by omega, ?_⟩
        intro hlt
        rcases Decidable.not_and_iff_or_not.mp h with h' | h'
        · omega
        · omega

/-- C9: `display_adjust_brightness` replaces the sample at the write
index (the oldest of the 16 stored) with the new reading, advances the
write index cyclically, keeps the running total equal to the sum of the
stored samples, and returns the lowest index of the monotonically
increasing 15-entry threshold table whose entry is at least the 16-sample
average (15 when every entry is below it). -/
theorem C9_brightness (s : BrightnessState) (reading : Nat)
    (hwi : s.writeIndex < 16)
    (hbuf : ∀ j, j < 16 → s.averageBuffer j < 256)
    (hreading : reading < 256)
    (htotal : s.runningTotal = ∑ j in Finset.range 16, s.averageBuffer j) :
    ((display_adjust_brightness s reading).1.averageBuffer s.writeIndex = reading ∧
     (∀ j, j ≠ s.writeIndex →
       (display_adjust_brightness s reading).1.averageBuffer j = s.averageBuffer j)) ∧
    (display_adjust_brightness s reading).1.writeIndex = (s.writeIndex + 1) % 16 ∧
    (display_adjust_brightness s reading).1.runningTotal
      = ∑ j in Finset.range 16, (display_adjust_brightness s reading).1.averageBuffer j ∧
    ((display_adjust_brightness s reading).2 ≤ 15 ∧
     (∀ k, k < (display_adjust_brightness s reading).2 →
       brightnessTable k < (display_adjust_brightness s reading).1.runningTotal / 16) ∧
     ((display_adjust_brightness s reading).2 < 15 →
       (display_adjust_brightness s reading).1.runningTotal / 16
         ≤ brightnessTable ((display_adjust_brightness s reading).2))) ∧
    (∀ j < 14, brightnessTable j < brightnessTable (j + 1)) := by
  have hr : reading % 256 = reading := Nat.mod_eq_of_lt hreading
  have hmem : s.writeIndex ∈ Finset.range 16 := Finset.mem_range.mpr hwi
  have hsplit : ∀ f : Nat → Nat,
      ∑ j in Finset.range 16, f j
        = f s.writeIndex + ∑ j in (Finset.range 16).erase s.writeIndex, f j :=
    fun f => (Finset.add_sum_erase (Finset.range 16) f hmem).symm
  have hold : s.averageBuffer s.writeIndex % 256 = s.averageBuffer s.writeIndex :=
    Nat.mod_eq_of_lt (hbuf _ hwi)
  have herase_le : ∑ j in (Finset.range 16).erase s.writeIndex, s.averageBuffer j
      ≤ 15 * 255 := by
    have hcard : ((Finset.range 16).erase s.writeIndex).card = 15 := by
      rw [Finset.card_erase_of_mem hmem, Finset.card_range]
    calc ∑ j in (Finset.range 16).erase s.writeIndex, s.averageBuffer j
        ≤ ∑ _j in (Finset.range 16).erase s.writeIndex, 255 := by
          apply Finset.sum_le_sum
          intro j hj
          have : j < 16 := Finset.mem_range.mp (Finset.mem_of_mem_erase hj)
          have := hbuf j this
          omega
      _ = 15 * 255 := by rw [Finset.sum_const, hcard]; simp [Nat.smul_one_eq_cast]
  have hsum : ((s.runningTotal + 65536 - s.averageBuffer s.writeIndex % 256) % 65536
        + reading % 256) % 65536
      = reading + ∑ j in (Finset.range 16).erase s.writeIndex, s.averageBuffer j := by
    rw [hr, hold, htotal, hsplit s.averageBuffer]
    omega
  have hbufsum : ∑ j in Finset.range 16,
        (fun j => if j = s.writeIndex then reading % 256 else s.averageBuffer j) j
      = reading + ∑ j in (Finset.range 16).erase s.writeIndex, s.averageBuffer j := by
    rw [hsplit (fun j => if j = s.writeIndex then reading % 256 else s.averageBuffer j)]
    simp only [if_pos rfl, hr]
    congr 1
    apply Finset.sum_congr rfl
    intro j hj
    exact if_neg (Finset.ne_of_mem_erase hj)
  have hloop := intensityLoop_spec
    ((((s.runningTotal + 65536 - s.averageBuffer s.writeIndex % 256) % 65536
        + reading % 256) % 65536) / 16) 15 0 (by omega) (by omega)
  have h1 : (display_adjust_brightness s reading).1.averageBuffer
      = fun j => if j = s.writeIndex then reading % 256 else s.averageBuffer j := rfl
  have h2 : (display_adjust_brightness s reading).1.writeIndex
      = (s.writeIndex + 1) % 16 := rfl
  have h3 : (display_adjust_brightness s reading).1.runningTotal
      = ((s.runningTotal + 65536 - s.averageBuffer s.writeIndex % 256) % 65536
          + reading % 256) % 65536 := rfl
  have h4 : (display_adjust_brightness s reading).2
      = intensityLoop
          ((((s.runningTotal + 65536 - s.averageBuffer s.writeIndex % 256) % 65536
              + reading % 256) % 65536) / 16) 0 := rfl
  refine ⟨⟨by rw [h1]; simp [hr], fun j hj => by rw [h1]; exact if_neg hj⟩,
    h2, ?_, ⟨?_, ?_, ?_⟩, by decide⟩
  · rw [h3, h1, hsum, hbufsum]
  · rw [h4]; exact hloop.2.1
  · intro k hk
    rw [h4] at hk
    rw [h3]
    exact hloop.2.2.1 k (by omega) hk
  · intro hlt
    rw [h4] at hlt ⊢
    rw [h3]
    exact hloop.2.2.2 hlt

/-- Witness for C9: inserting reading 100 into the all-zero buffer
yields intensity 0 (average 6 is below every threshold entry). -/
theorem C9_witness :
    ((display_adjust_brightness ⟨fun _ => 0, 0, 0⟩ 100).1.averageBuffer 0 = 100 ∧
     (∀ j, j ≠ (0 : Nat) →
       (display_adjust_brightness ⟨fun _ => 0, 0, 0⟩ 100).1.averageBuffer j = 0)) ∧
    (display_adjust_brightness ⟨fun _ => 0, 0, 0⟩ 100).1.writeIndex = 1 % 16 ∧
    (display_adjust_brightness ⟨fun _ => 0, 0, 0⟩ 100).1.runningTotal
      = ∑ j in Finset.range 16,
          (display_adjust_brightness ⟨fun _ => 0, 0, 0⟩ 100).1.averageBuffer j ∧
    ((display_adjust_brightness ⟨fun _ => 0, 0, 0⟩ 100).2 ≤ 15 ∧
     (∀ k, k < (display_adjust_brightness ⟨fun _ => 0, 0, 0⟩ 100).2 →
       brightnessTable k
         < (display_adjust_brightness ⟨fun _ => 0, 0, 0⟩ 100).1.runningTotal / 16) ∧
     ((display_adjust_brightness ⟨fun _ => 0, 0, 0⟩ 100).2 < 15 →
       (display_adjust_brightness ⟨fun _ => 0, 0, 0⟩ 100).1.runningTotal / 16
         ≤ brightnessTable ((display_adjust_brightness ⟨fun _ => 0, 0, 0⟩ 100).2))) ∧
    (∀ j < 14, brightnessTable j < brightnessTable (j + 1)) := by
  have h := C9_brightness ⟨fun _ => 0, 0, 0⟩ 100 (by decide)
    (fun j _ => by show (0 : Nat) < 256; decide) (by decide) (by simp)
  simpa using h

/-! ### Claim C2: single-bit corruption and the checksum -/

/-- XOR of the stream bytes at positions `pos, ..., pos + n - 1` (each
truncated to 8 bits as read). -/
def xorRange (stream : Nat → Nat) : Nat → Nat → Nat
  | _pos, 0 => 0
  | pos, n + 1 => (stream pos % 256) ^^^ xorRange stream (pos + 1) n

/-- In `kReadFields`, a byte other than `'*'` never returns, stays in
`kReadFields`, and is XOR-ed into the checksum. -/
theorem nmeaStep_fields (de : Bool) (s : DecoderState) (byte : Nat)
    (hst : s.rstate = NmeaReadState.kReadFields) (hb : byte ≠ 42) :
    (nmeaStep de s byte).2 = none ∧
    (nmeaStep de s byte).1.rstate = NmeaReadState.kReadFields ∧
    (nmeaStep de s byte).1.checksum = s.checksum ^^^ byte := by
  obtain ⟨cs, b0, b1, bi, oi, ti, rs, f, htd, stf, out⟩ := s
  dsimp only at hst
  subst hst
  simp only [nmeaStep]
  rw [if_neg hb]
  split_ifs <;> exact ⟨rfl, rfl, rfl⟩

/-- In `kReadFields`, the byte `'*'` moves to `kChecksumVerify` without
touching the checksum. -/
theorem nmeaStep_star (de : Bool) (s : DecoderState)
    (hst : s.rstate = NmeaReadState.kReadFields) :
    nmeaStep de s 42 = ({ s with rstate := NmeaReadState.kChecksumVerify }, none) := by
  obtain ⟨cs, b0, b1, bi, oi, ti, rs, f, htd, stf, out⟩ := s
  dsimp only at hst
  subst hst
  simp [nmeaStep]

/-- In `kChecksumVerify` with an empty pair buffer, the byte is stored
as the first checksum character. -/
theorem nmeaStep_cs1 (de : Bool) (s : DecoderState) (byte : Nat)
    (hst : s.rstate = NmeaReadState.kChecksumVerify) (hb : s.bufIndex = 0) :
    nmeaStep de s byte = ({ s with buf0 := byte, bufIndex := 1 }, none) := by
  obtain ⟨cs, b0, b1, bi, oi, ti, rs, f, htd, stf, out⟩ := s
  dsimp only at hst hb
  subst hst
  subst hb
  simp [nmeaStep]

/-- In `kChecksumVerify` holding one character, the byte completes the
pair and the comparison decides the returned status. -/
theorem nmeaStep_cs2 (de : Bool) (s : DecoderState) (byte : Nat)
    (hst : s.rstate = NmeaReadState.kChecksumVerify) (hb : s.bufIndex = 1) :
    nmeaStep de s byte = ({ s with buf1 := byte, bufIndex := 2 },
      some (if hex2int s.buf0 byte = s.checksum then
              (if s.sawTimeFields then GpsReadStatus.kGPS_Success
               else GpsReadStatus.kGPS_NoSignal)
            else GpsReadStatus.kGPS_InvalidChecksum)) := by
  obtain ⟨cs, b0, b1, bi, oi, ti, rs, f, htd, stf, out⟩ := s
  dsimp only at hst hb
  subst hst
  subst hb
  simp [nmeaStep]

/-- Streams that agree on a range have the same XOR over it. -/
theorem xorRange_congr (s1 s2 : Nat → Nat) :
    ∀ n pos, (∀ j, pos ≤ j → j < pos + n → s1 j = s2 j) →
      xorRange s1 pos n = xorRange s2 pos n := by
  intro n
  induction n with
  | zero => intro pos _; rfl
  | succ n ih =>
      intro pos h
      simp only [xorRange]
      rw [h pos (le_refl _) (by omega), ih (pos + 1) (fun j h1 h2 => h j (by omega) (by omega))]

/-- Flipping bit `b < 8` of the byte at position `q` inside the range
flips exactly that bit of the XOR over the range. -/
theorem xorRange_flip (stream : Nat → Nat) (q b : Nat)
    (hlt : ∀ i, stream i < 256) (hb : b < 8) :
    ∀ n pos, pos ≤ q → q < pos + n →
      xorRange (flipBit stream q b) pos n = xorRange stream pos n ^^^ 2 ^ b := by
  have hmod : ∀ i, stream i % 256 = stream i := fun i => Nat.mod_eq_of_lt (hlt i)
  have hpow : (2 : Nat) ^ b < 256 := by
    calc (2 : Nat) ^ b ≤ 2 ^ 7 := Nat.pow_le_pow_right (by omega) (by omega)
    _ < 256 := by omega
  intro n
  induction n with
  | zero => intro pos h1 h2; omega
  | succ n ih =>
      intro pos h1 h2
      simp only [xorRange]
      rcases Nat.eq_or_lt_of_le h1 with hq | hq
      · subst hq
        have hflip_at : flipBit stream pos b pos % 256 = stream pos ^^^ 2 ^ b := by
          have : flipBit stream pos b pos = stream pos ^^^ 2 ^ b := by
            simp [flipBit]
          rw [this, Nat.mod_eq_of_lt (Nat.xor_lt_two_pow (n := 8) (by
            have := hlt pos; omega) (by omega))]
        have htail : xorRange (flipBit stream pos b) (pos + 1) n
            = xorRange stream (pos + 1) n := by
          apply xorRange_congr
          intro j hj1 hj2
          simp [flipBit]
          omega
        rw [hflip_at, htail, hmod pos]
        rw [Nat.xor_assoc, Nat.xor_comm (2 ^ b) _, ← Nat.xor_assoc]
      · have hhead : flipBit stream q b pos % 256 = stream pos % 256 := by
          have : flipBit stream q b pos = stream pos := by
            simp [flipBit]
            omega
          rw [this]
        rw [hhead, ih (pos + 1) (by omega) (by omega), ← Nat.xor_assoc]

/-- Absorbing a run of non-`'*'` bytes while in `kReadFields`: the loop
never returns, stays in `kReadFields`, and XOR-s every byte into the
checksum. -/
theorem stepN_fields (de : Bool) (stream : Nat → Nat) :
    ∀ n pos s, s.rstate = NmeaReadState.kReadFields →
      (∀ j, pos ≤ j → j < pos + n → stream j % 256 ≠ 42) →
      ∃ s', stepN de stream n pos s = some s' ∧
        s'.rstate = NmeaReadState.kReadFields ∧
        s'.checksum = s.checksum ^^^ xorRange stream pos n := by
  intro n
  induction n with
  | zero =>
      intro pos s hst _
      exact ⟨s, rfl, hst, by simp [xorRange]⟩
  | succ n ih =>
      intro pos s hst hb
      have hb0 := hb pos (le_refl _) (by omega)
      have hstep := nmeaStep_fields de s (stream pos % 256) hst hb0
      rcases hs : nmeaStep de s (stream pos % 256) with ⟨s1, st⟩
      rw [hs] at hstep
      obtain ⟨hnone, hst1, hcs1⟩ := hstep
      dsimp only at hnone hst1 hcs1
      subst hnone
      obtain ⟨s', hrun, hst', hcs'⟩ := ih (pos + 1) s1 hst1
        (fun j h1 h2 => hb j (by omega) (by omega))
      refine ⟨s', ?_, hst', ?_⟩
      · simp only [stepN, hs]
        exact hrun
      · rw [hcs', hcs1, xorRange, Nat.xor_assoc]

/-- Shape of a full decode of a framed sentence
`'$' "GPRMC" payload '*' c1 c2 ...`: after the start marker and type
match the loop sits in `kReadFields` with checksum 75 (the XOR of
"GPRMC"), absorbs the `k` payload bytes, and — when the pair buffer is
empty at the `'*'` — the returned status is decided by comparing the
hex checksum characters against `75 ^^^ xorRange stream 6 k`. -/
theorem gps_decode_shape (de : Bool) (stream : Nat → Nat) (k : Nat)
    (hk : k ≤ 70)
    (hlt : ∀ i, stream i < 256)
    (h0 : stream 0 = 36)
    (htype : ∀ i, i < 5 → stream (1 + i) = gprmcChar i)
    (hpay : ∀ j, 6 ≤ j → j < 6 + k → stream j ≠ 42)
    (hstar : stream (6 + k) = 42) :
    ∃ s', stepN de stream (6 + k) 0 initState = some s' ∧
      s'.rstate = NmeaReadState.kReadFields ∧
      s'.checksum = 75 ^^^ xorRange stream 6 k ∧
      (s'.bufIndex = 0 →
        (gps_read_time de stream).1 =
          (if hex2int (stream (7 + k) % 256) (stream (8 + k) % 256)
              = 75 ^^^ xorRange stream 6 k then
             (if s'.sawTimeFields then GpsReadStatus.kGPS_Success
              else GpsReadStatus.kGPS_NoSignal)
           else GpsReadStatus.kGPS_InvalidChecksum)) := by
  have e : ∀ i, stream i % 256 = stream i := fun i => Nat.mod_eq_of_lt (hlt i)
  have e0 : stream 0 % 256 = 36 := by rw [e 0, h0]
  have e1 : stream 1 % 256 = 71 := by
    rw [e 1]; have h := htype 0 (by omega); simpa [gprmcChar] using h
  have e2 : stream 2 % 256 = 80 := by
    rw [e 2]; have h := htype 1 (by omega); simpa [gprmcChar] using h
  have e3 : stream 3 % 256 = 82 := by
    rw [e 3]; have h := htype 2 (by omega); simpa [gprmcChar] using h
  have e4 : stream 4 % 256 = 77 := by
    rw [e 4]; have h := htype 3 (by omega); simpa [gprmcChar] using h
  have e5 : stream 5 % 256 = 67 := by
    rw [e 5]; have h := htype 4 (by omega); simpa [gprmcChar] using h
  have htype6 : stepN de stream 6 0 initState
      = some { initState with
               rstate := NmeaReadState.kReadFields
               checksum := 75
               typeStrIndex := 4 } := by
    simp [stepN, nmeaStep, e0, e1, e2, e3, e4, e5, gprmcChar, initState]
  obtain ⟨s', hrun, hst', hcs'⟩ := stepN_fields de stream k 6
    { initState with
      rstate := NmeaReadState.kReadFields
      checksum := 75
      typeStrIndex := 4 }
    rfl (fun j h1 h2 => by rw [e j]; exact hpay j h1 h2)
  have hrunFull : stepN de stream (6 + k) 0 initState = some s' := by
    rw [stepN_add de stream 6 k 0 initState, htype6]
    simpa using hrun
  refine ⟨s', hrunFull, hst', by simpa using hcs', ?_⟩
  intro hbuf
  have estar : stream (6 + k) % 256 = 42 := by rw [e _, hstar]
  have h79 : 6 + k + (73 - k) = 79 := by omega
  have hsplit : gps_read_time de stream
      = runDecoder de stream (73 - k) (6 + k) s' := by
    have := runDecoder_stepN de stream (6 + k) (73 - k) 0 initState s' hrunFull
    rw [gps_read_time, ← h79, this]
    norm_num
  obtain ⟨f, hf⟩ : ∃ f, 73 - k = f + 3 := ⟨70 - k, by omega⟩
  have hstar_step := nmeaStep_star de s' hst'
  have hcs1_step := nmeaStep_cs1 de { s' with rstate := NmeaReadState.kChecksumVerify }
    (stream (6 + k + 1) % 256) rfl hbuf
  have hcs2_step := nmeaStep_cs2 de
    { s' with
      rstate := NmeaReadState.kChecksumVerify
      buf0 := stream (6 + k + 1) % 256
      bufIndex := 1 }
    (stream (6 + k + 2) % 256) rfl rfl
  have h7 : 6 + k + 1 = 7 + k := by omega
  have h8 : 6 + k + 2 = 8 + k := by omega
  have hcsv : s'.checksum = 75 ^^^ xorRange stream 6 k := by simpa using hcs'
  rw [hsplit, hf]
  simp only [runDecoder, estar, hstar_step, hcs1_step, hcs2_step]
  dsimp only
  rw [h7, h8, hcsv]

/-- C2 (amended): for a framed sentence `'$' "GPRMC" payload '*' c1 c2`
whose decode is `kGPS_Success`, flipping any single bit of any single
payload byte — i.e. of a byte strictly between `'$'` and `'*'` but after
the sentence-type characters — yields `kGPS_InvalidChecksum`, provided
the flipped byte is not `'*'` and the digit-pair buffer is empty at the
`'*'` in both the original and the modified runs. -/
theorem C2_bitflip (de : Bool) (stream : Nat → Nat) (k q b : Nat)
    (hk : k ≤ 70) (hlt : ∀ i, stream i < 256)
    (h0 : stream 0 = 36)
    (htype : ∀ i, i < 5 → stream (1 + i) = gprmcChar i)
    (hpay : ∀ j, 6 ≤ j → j < 6 + k → stream j ≠ 42)
    (hstar : stream (6 + k) = 42)
    (hq1 : 6 ≤ q) (hq2 : q < 6 + k) (hb : b < 8)
    (hflip : stream q ^^^ 2 ^ b ≠ 42)
    (hsucc : (gps_read_time de stream).1 = GpsReadStatus.kGPS_Success)
    (hbuf1 : ∀ s, stepN de stream (6 + k) 0 initState = some s → s.bufIndex = 0)
    (hbuf2 : ∀ s, stepN de (flipBit stream q b) (6 + k) 0 initState = some s →
      s.bufIndex = 0) :
    (gps_read_time de (flipBit stream q b)).1 = GpsReadStatus.kGPS_InvalidChecksum := by
  obtain ⟨s1, hrun1, hst1, hcs1, hcont1⟩ :=
    gps_decode_shape de stream k hk hlt h0 htype hpay hstar
  have hstat1 := hcont1 (hbuf1 s1 hrun1)
  have hrec : hex2int (stream (7 + k) % 256) (stream (8 + k) % 256)
      = 75 ^^^ xorRange stream 6 k := by
    by_contra hne
    rw [hsucc, if_neg hne] at hstat1
    exact GpsReadStatus.noConfusion hstat1
  have hlt2 : ∀ i, flipBit stream q b i < 256 := by
    intro i
    by_cases h : i = q
    · subst h
      have h1 : stream i < 2 ^ 8 := hlt i
      have h2 : (2 : Nat) ^ b < 2 ^ 8 := by
        calc (2 : Nat) ^ b ≤ 2 ^ 7 := Nat.pow_le_pow_right (by omega) (by omega)
        _ < 2 ^ 8 := by omega
      simpa [flipBit] using Nat.xor_lt_two_pow h1 h2
    · simpa [flipBit, h] using hlt i
  have h0' : flipBit stream q b 0 = 36 := by
    have hne : (0 : Nat) ≠ q := by omega
    simp [flipBit, hne, h0]
  have htype' : ∀ i, i < 5 → flipBit stream q b (1 + i) = gprmcChar i := by
    intro i hi
    have hne : 1 + i ≠ q := by omega
    simp only [flipBit, if_neg hne]
    exact htype i hi
  have hpay' : ∀ j, 6 ≤ j → j < 6 + k → flipBit stream q b j ≠ 42 := by
    intro j h1 h2
    by_cases hjq : j = q
    · subst hjq
      simpa [flipBit] using hflip
    · simp only [flipBit, if_neg hjq]
      exact hpay j h1 h2
  have hstar' : flipBit stream q b (6 + k) = 42 := by
    have hne : 6 + k ≠ q := by omega
    simp [flipBit, hne, hstar]
  obtain ⟨t2, hrun2, hst2, hcs2, hcont2⟩ :=
    gps_decode_shape de (flipBit stream q b) k hk hlt2 h0' htype' hpay' hstar'
  have hstat2 := hcont2 (hbuf2 t2 hrun2)
  have hc1 : flipBit stream q b (7 + k) = stream (7 + k) := by
    have hne : 7 + k ≠ q := by omega
    simp [flipBit, hne]
  have hc2 : flipBit stream q b (8 + k) = stream (8 + k) := by
    have hne : 8 + k ≠ q := by omega
    simp [flipBit, hne]
  have hx : xorRange (flipBit stream q b) 6 k = xorRange stream 6 k ^^^ 2 ^ b :=
    xorRange_flip stream q b hlt hb k 6 hq1 hq2
  rw [hc1, hc2, hx] at hstat2
  have hne : hex2int (stream (7 + k) % 256) (stream (8 + k) % 256)
      ≠ 75 ^^^ (xorRange stream 6 k ^^^ 2 ^ b) := by
    rw [hrec]
    intro h
    have h2 : xorRange stream 6 k = xorRange stream 6 k ^^^ 2 ^ b := by
      have hcongr := congrArg (fun t => 75 ^^^ t) h
      simpa [← Nat.xor_assoc, Nat.xor_self, Nat.zero_xor] using hcongr
    have h3 : (0 : Nat) = 2 ^ b := by
      have hcongr := congrArg (fun t => xorRange stream 6 k ^^^ t) h2
      simpa [← Nat.xor_assoc, Nat.xor_self, Nat.zero_xor] using hcongr
    have h4 : (0 : Nat) < 2 ^ b := Nat.pos_pow_of_pos b (by omega)
    omega
  rw [if_neg hne] at hstat2
  exact hstat2

/-- Counterexample to C2 as stated: the claim includes the sentence-type
characters in the flippable region, but flipping bit 0 of the 'G' at
position 1 of the Example 1 sentence (strictly between the '$' at
position 0 and the '*' at position 63) makes the type comparison fail,
and the decoder returns `kGPS_NoMatch`, not `kGPS_InvalidChecksum`. -/
theorem C2_counterexample :
    (gps_read_time false ex1Stream).1 = GpsReadStatus.kGPS_Success ∧
    ex1Stream 0 = 36 ∧ ex1Stream 63 = 42 ∧ (0 : Nat) < 1 ∧ (1 : Nat) < 63 ∧
    (gps_read_time false (flipBit ex1Stream 1 0)).1 = GpsReadStatus.kGPS_NoMatch ∧
    (gps_read_time false (flipBit ex1Stream 1 0)).1
      ≠ GpsReadStatus.kGPS_InvalidChecksum := by
  decide

/-- Witness for C2: flipping bit 0 of the first timestamp digit of the
Example 1 sentence (position 7) yields `kGPS_InvalidChecksum`. -/
theorem C2_witness :
    (gps_read_time false (flipBit ex1Stream 7 0)).1
      = GpsReadStatus.kGPS_InvalidChecksum := by
  have hlt : ∀ x ∈ ex1List, x < 256 := by decide
  have hstreamlt : ∀ i, ex1Stream i < 256 := by
    intro i
    rcases Nat.lt_or_ge i ex1List.length with h | h
    · rw [ex1Stream, List.getD_eq_getElem ex1List 0 h]
      exact hlt _ (List.getElem_mem h)
    · rw [ex1Stream, List.getD_eq_default ex1List 0 h]
      omega
  have hpay63 : ∀ j, j < 63 → 6 ≤ j → ex1Stream j ≠ 42 := by decide
  have hbufA : ∀ s, stepN false ex1Stream 63 0 initState = some s →
      s.bufIndex = 0 := by
    intro s h
    have hmap : (stepN false ex1Stream 63 0 initState).map DecoderState.bufIndex
        = some 0 := by decide
    rw [h] at hmap
    simpa using hmap
  have hbufB : ∀ s, stepN false (flipBit ex1Stream 7 0) 63 0 initState = some s →
      s.bufIndex = 0 := by
    intro s h
    have hmap : (stepN false (flipBit ex1Stream 7 0) 63 0 initState).map
        DecoderState.bufIndex = some 0 := by decide
    rw [h] at hmap
    simpa using hmap
  exact C2_bitflip false ex1Stream 57 7 0 (by omega) hstreamlt (by decide)
    (by decide) (fun j h1 h2 => hpay63 j h2 h1) (by decide)
    (by omega) (by omega) (by omega) (by decide) (by decide) hbufA hbufB
